import Mathlib

/-!
Verification of the pane-parsing and completion-detection engine.

The development shallowly embeds two source modules:
* `Pane` — the pure parsing utilities of `pane_parser.py` (live-timer
  pattern search, prompt-line search, body extraction);
* `Disp` — the monitoring loop of `dispatcher.py` (its own
  `find_last_timer_line` / `extract_timer_value` variants based on the
  "Worked for " summary line, and the stable-poll completion detector).

Strings are modelled as Lean `String` (logically a list of characters);
Python regular-expression searches are modelled by explicit left-to-right
scanners with the same backtracking behaviour on the concrete patterns
involved; `\d` is modelled as an ASCII digit.
-/

/-- Character-list prefix test: `leadsWith p s` holds when `p` is an initial
segment of `s` (models Python `str.startswith` / anchored regex literals). -/
def leadsWith : List Char → List Char → Bool
  | [], _ => true
  | _ :: _, [] => false
  | c :: cs, d :: ds => c = d && leadsWith cs ds

/-- Substring containment test (models the Python `in` operator on strings). -/
def containsSub (pat : List Char) : List Char → Bool
  | [] => leadsWith pat []
  | c :: cs => leadsWith pat (c :: cs) || containsSub pat cs

/-- A line is blank when stripping whitespace leaves nothing
(models the Python truthiness test `not line.strip()`). -/
def isBlank (s : String) : Bool :=
  s.data.all Char.isWhitespace

/-- A line is a prompt line when its leading-whitespace-trimmed text starts
with one of the prompt glyphs `>` or `›`
(models `line.lstrip().startswith((">", "›"))`). -/
def isPrompt (s : String) : Bool :=
  match s.data.dropWhile Char.isWhitespace with
  | [] => false
  | c :: _ => c = '>' || c = '›'

/-- The literal tail of the live-timer pattern following the duration token. -/
def escSuffix : List Char := (" • esc to interrupt)").data

/-- Match the seconds part `\d+s` of the duration followed by the literal
suffix, returning the seconds token; models the regex tail `\d+s • esc to
interrupt\)` applied at the current position. -/
def secondsPart (cs : List Char) : Option (List Char) :=
  let ds := cs.takeWhile Char.isDigit
  let rest := cs.dropWhile Char.isDigit
  if ds = [] then none
  else
    match rest with
    | 's' :: rest2 => if leadsWith escSuffix rest2 then some (ds ++ ['s']) else none
    | _ => none

/-- Match the duration with a minutes part, `\d+m \d+s`, followed by the
literal suffix, returning the full duration token. -/
def minutesThenSeconds (cs : List Char) : Option (List Char) :=
  let ds := cs.takeWhile Char.isDigit
  let rest := cs.dropWhile Char.isDigit
  if ds = [] then none
  else
    match rest with
    | 'm' :: ' ' :: rest2 =>
        match secondsPart rest2 with
        | some t => some (ds ++ ['m', ' '] ++ t)
        | none => none
    | _ => none

/-- Try to match the whole live-timer pattern
`\((?:\d+m )?\d+s • esc to interrupt\)` at the current position, returning
the captured duration group; the greedy optional minutes group is tried
first, falling back to the bare seconds form, exactly as the backtracking
regex engine does. -/
def timerAt : List Char → Option (List Char)
  | '(' :: rest =>
      match minutesThenSeconds rest with
      | some t => some t
      | none => secondsPart rest
  | _ => none

/-- Left-to-right search for the live-timer pattern, returning the duration
captured at the leftmost matching position (models `TIMER_PATTERN.search`). -/
def timerSearch : List Char → Option (List Char)
  | [] => none
  | c :: cs =>
      match timerAt (c :: cs) with
      | some t => some t
      | none => timerSearch cs

/-- Whether a line contains a live-timer pattern match. -/
def hasTimer (s : String) : Bool :=
  (timerSearch s.data).isSome

/-- Backward scan shared by both modules' last-match loops
(`for idx in range(len(lines) - 1, -1, -1)`): the last index whose line
satisfies `p`, together with that line. -/
def findLastBy (p : String → Bool) : List String → Option (Nat × String)
  | [] => none
  | l :: ls =>
      match findLastBy p ls with
      | some (i, s) => some (i + 1, s)
      | none => if p l then some (0, l) else none

/-- Drop leading blank lines (the `while body_lines and not
body_lines[0].strip(): body_lines.pop(0)` loop). -/
def trimLeading : List String → List String
  | [] => []
  | l :: ls => if isBlank l then trimLeading ls else l :: ls

/-- Drop trailing blank lines (the `while body_lines and not
body_lines[-1].strip(): body_lines.pop()` loop). -/
def trimTrailing : List String → List String
  | [] => []
  | l :: ls =>
      match trimTrailing ls with
      | [] => if isBlank l then [] else [l]
      | m :: ms => l :: m :: ms

/-- Shared scanner behind `find_prompt_line`: first prompt line in `ls`,
reporting absolute index starting at `i`. -/
def promptScan : List String → Nat → Option Nat
  | [], _ => none
  | l :: ls, i => if isPrompt l then some i else promptScan ls (i + 1)

/-- Both modules' identical `find_prompt_line`: first index strictly after
`start_index` whose line is a prompt line. -/
def find_prompt_line (lines : List String) (start_index : Nat) : Option Nat :=
  promptScan (lines.drop (start_index + 1)) (start_index + 1)

namespace Pane

/-- The `pane_parser` module's `find_last_timer_line`: last line matching the
live-timer pattern, with its index. -/
def find_last_timer_line (lines : List String) : Option (Nat × String) :=
  findLastBy hasTimer lines

/-- The `pane_parser` module's `extract_timer_value`: the duration token of
the leftmost live-timer match, `none` for a missing or falsy (empty) line or
when no match exists. -/
def extract_timer_value (timer_line : Option String) : Option String :=
  match timer_line with
  | none => none
  | some l =>
      if l = "" then none
      else
        match timerSearch l.data with
        | some t => some ⟨t⟩
        | none => none

/-- The `pane_parser` module's `extract_body_lines`: empty when
`start_index` is `none`; otherwise the slice from `start_index`
(or `start_index + 1` when the start line is excluded) up to the exclusive
end marker (end of input when `prompt_index` is `none`), with leading and
trailing blank lines trimmed. -/
def extract_body_lines (lines : List String) (start_index : Option Nat)
    (prompt_index : Option Nat) (include_start_line : Bool) : List String :=
  match start_index with
  | none => []
  | some si =>
      let end_index := match prompt_index with
        | some p => p
        | none => lines.length
      let slice_start := if include_start_line then si else si + 1
      trimTrailing (trimLeading ((lines.take end_index).drop slice_start))

end Pane

namespace Disp

/-- The characters of the dispatcher's completion-summary marker. -/
def workedForChars : List Char := ("Worked for ").data

/-- The dispatcher's own `find_last_timer_line`: last line containing the
literal substring `Worked for `, with its index. -/
def find_last_timer_line (lines : List String) : Option (Nat × String) :=
  findLastBy (fun l => containsSub workedForChars l.data) lines

/-- Scanner for the dispatcher's regex `Worked for ([^ ]+)`: at the current
position, match the literal marker followed by at least one non-space
character, capturing the maximal space-free token. -/
def wfTokenAt (cs : List Char) : Option String :=
  if leadsWith workedForChars cs then
    let tok := (cs.drop workedForChars.length).takeWhile (fun c => c ≠ ' ')
    if tok = [] then none else some ⟨tok⟩
  else none

/-- Left-to-right search for `Worked for ([^ ]+)` (models `re.search`). -/
def wfSearch : List Char → Option String
  | [] => none
  | c :: cs =>
      match wfTokenAt (c :: cs) with
      | some t => some t
      | none => wfSearch cs

/-- The dispatcher's own `extract_timer_value`: the first space-free token
following the leftmost `Worked for ` marker, `none` for a missing or falsy
(empty) line or when the pattern does not match. -/
def extract_timer_value (timer_line : Option String) : Option String :=
  match timer_line with
  | none => none
  | some l => if l = "" then none else wfSearch l.data

/-- The value the monitoring loop extracts from a snapshot: the timer value
of the snapshot's last timer line. -/
def timerValueOf (snap : List String) : Option String :=
  extract_timer_value
    (match find_last_timer_line snap with
     | some (_, l) => some l
     | none => none)

/-- The dispatcher's stability threshold `STABLE_TIMER_POLLS`. -/
def STABLE_TIMER_POLLS : Nat := 5

/-- The monitoring loop's mutable detector state: the consecutive stable-poll
counter and the stored last timer line. -/
structure LoopState where
  stable_timer_polls : Nat
  last_timer_line : Option String
deriving DecidableEq

/-- The initial detector state of `main` (`stable_timer_polls = 0`,
`last_timer_line = None`). -/
def initState : LoopState := ⟨0, none⟩

/-- One poll iteration's state update: reset both fields when no timer line
is found; otherwise increment the counter when the found line equals the
stored line and restart it at 1 (storing the new line) when it does not. -/
def stepState (st : LoopState) (snap : List String) : LoopState :=
  match find_last_timer_line snap with
  | none => ⟨0, none⟩
  | some (_, line) =>
      if st.last_timer_line = some line then
        ⟨st.stable_timer_polls + 1, st.last_timer_line⟩
      else
        ⟨1, some line⟩

/-- Whether the poll processing snapshot `snap` from state `st` breaks the
loop: a timer line is present and the updated counter has reached the
threshold. -/
def completesNow (st : LoopState) (snap : List String) : Bool :=
  match find_last_timer_line snap with
  | none => false
  | some _ => decide (STABLE_TIMER_POLLS ≤ (stepState st snap).stable_timer_polls)

/-- Detector state just before processing the snapshot at index `i`. -/
def stateBefore (snaps : List (List String)) (i : Nat) : LoopState :=
  (snaps.take i).foldl stepState initState

/-- The stable counter right after processing the snapshot at index `i`. -/
def countAfter (snaps : List (List String)) (i : Nat) : Nat :=
  (stepState (stateBefore snaps i) (snaps.getD i [])).stable_timer_polls

/-- The detector transitions from Polling to Completed exactly while
processing the snapshot at index `i`: that poll breaks the loop and no
earlier poll did. -/
def firesAt (snaps : List (List String)) (i : Nat) : Prop :=
  i < snaps.length ∧
    completesNow (stateBefore snaps i) (snaps.getD i []) = true ∧
    ∀ j, j < i → completesNow (stateBefore snaps j) (snaps.getD j []) = false

instance (snaps : List (List String)) (i : Nat) : Decidable (firesAt snaps i) := by
  unfold firesAt
  infer_instance

/-- The answer body computed in-line by the monitoring loop on completion:
`lines[timer_index + 1 : prompt_index]` followed by the two blank-trimming
loops. -/
def answerBody (lines : List String) (timer_index : Nat) : List String :=
  let body := match find_prompt_line lines timer_index with
    | none => lines.drop (timer_index + 1)
    | some p => (lines.take p).drop (timer_index + 1)
  trimTrailing (trimLeading body)

end Disp

section Lemmas

lemma trimLeading_eq_dropWhile (l : List String) :
    trimLeading l = l.dropWhile isBlank := by
  induction l with
  | nil => rfl
  | cons x xs ih =>
      simp only [trimLeading, List.dropWhile_cons]
      cases h : isBlank x <;> simp [h, ih]

lemma trimTrailing_eq (l : List String) :
    trimTrailing l = (l.reverse.dropWhile isBlank).reverse := by
  induction l with
  | nil => rfl
  | cons x xs ih =>
      have hstep : trimTrailing (x :: xs) =
          match trimTrailing xs with
          | [] => if isBlank x then [] else [x]
          | m :: ms => x :: m :: ms := rfl
      rw [hstep, List.reverse_cons, List.dropWhile_append]
      cases h : trimTrailing xs with
      | nil =>
          have hnil : xs.reverse.dropWhile isBlank = [] := by
            have h2 := ih
            rw [h] at h2
            exact List.reverse_eq_nil_iff.mp h2.symm
          simp only [hnil, List.isEmpty_nil, if_true, List.dropWhile_cons,
            List.dropWhile_nil]
          cases hx : isBlank x <;> simp [hx]
      | cons m ms =>
          have hne : xs.reverse.dropWhile isBlank ≠ [] := by
            intro hc
            rw [hc] at ih
            simp only [List.reverse_nil] at ih
            rw [ih] at h
            cases h
          simp only [List.isEmpty_eq_true] at *
          rw [if_neg hne, List.reverse_append, List.reverse_singleton]
          rw [← ih, h]
          rfl

end Lemmas

/-- C10: `extract_body_lines` returns the empty list whenever `start_index`
is `none`, for every list of lines, optional end index, and
`include_start_line` flag. -/
theorem extract_body_lines_none_start (lines : List String)
    (prompt_index : Option Nat) (include_start_line : Bool) :
    Pane.extract_body_lines lines none prompt_index include_start_line = [] :=
  rfl

/-- C6: on completion by a stable timer, the dispatcher's in-line slicing
from `anchor + 1` to the prompt index (or end of input) followed by
blank-line trimming computes exactly
`extract_body_lines lines anchor (find_prompt_line lines anchor)` with the
start line excluded. -/
theorem dispatcher_body_refines_extract_body_lines (lines : List String)
    (anchor : Nat) :
    Disp.answerBody lines anchor =
      Pane.extract_body_lines lines (some anchor)
        (find_prompt_line lines anchor) false := by
  unfold Disp.answerBody Pane.extract_body_lines
  cases h : find_prompt_line lines anchor <;>
    simp [h, List.take_length]

/-- C8: `extract_timer_value` is total: `none` on `none` input and on every
string in which the timer pattern does not occur, and the duration token on
the two specification examples. -/
theorem extract_timer_value_total :
    Pane.extract_timer_value none = none
    ∧ (∀ s : String, timerSearch s.data = none →
        Pane.extract_timer_value (some s) = none)
    ∧ Pane.extract_timer_value (some "Working (3m 00s • esc to interrupt)") =
        some "3m 00s"
    ∧ Pane.extract_timer_value (some "Working (12s • esc to interrupt)") =
        some "12s" := by
  refine ⟨rfl, ?_, by decide, by decide⟩
  intro s h
  unfold Pane.extract_timer_value
  by_cases hs : s = "" <;> simp [hs, h]

/-- Witness for C8 at a concrete non-matching string. -/
theorem extract_timer_value_total_witness :
    Pane.extract_timer_value (some "no timer here") = none :=
  extract_timer_value_total.2.1 "no timer here" (by decide)

/-- C7: `extract_body_lines` with a present start index computes the slice
from the (possibly included) start marker up to the exclusive end marker
(end of input when the end index is `none`), with all leading and trailing
wholly-blank lines removed; on the seven-line example with
`start_index = 1` and `end_index = 6` it returns exactly the two answer
lines. -/
theorem extract_body_lines_slices_and_trims :
    (∀ (lines : List String) (si : Nat) (e : Option Nat) (incl : Bool),
        Pane.extract_body_lines lines (some si) e incl =
          ((((lines.drop (if incl then si else si + 1)).take
                ((match e with | some p => p | none => lines.length) -
                  (if incl then si else si + 1))).dropWhile
              isBlank).reverse.dropWhile isBlank).reverse)
    ∧ Pane.extract_body_lines
        ["header", "Worked for 3s - 99% context left", "", "final answer line 1",
          "final answer line 2", "", "> prompt"] (some 1) (some 6) false =
        ["final answer line 1", "final answer line 2"] := by
  constructor
  · intro lines si e incl
    dsimp only [Pane.extract_body_lines]
    rw [trimLeading_eq_dropWhile, trimTrailing_eq, List.drop_take]
  · decide

lemma completesNow_iff (st : Disp.LoopState) (snap : List String) :
    Disp.completesNow st snap = true ↔
      Disp.STABLE_TIMER_POLLS ≤ (Disp.stepState st snap).stable_timer_polls := by
  cases h : Disp.find_last_timer_line snap with
  | none =>
      simp only [Disp.completesNow, Disp.stepState, h]
      simp [Disp.STABLE_TIMER_POLLS]
  | some v =>
      simp [Disp.completesNow, h]

lemma completesNow_false_iff (st : Disp.LoopState) (snap : List String) :
    Disp.completesNow st snap = false ↔
      (Disp.stepState st snap).stable_timer_polls < Disp.STABLE_TIMER_POLLS := by
  rw [← Nat.not_le, ← completesNow_iff]
  cases Disp.completesNow st snap <;> simp

/-- C1: for snapshot sequences in which every poll sees a timer line and the
extracted timer value is the same from some poll onward, the detector
transitions from Polling to Completed exactly at the poll where the
consecutive stable count first reaches the threshold (5), never earlier. -/
theorem detector_completes_iff_stable_threshold (snaps : List (List String))
    (hpres : ∀ j, j < snaps.length →
        Disp.find_last_timer_line (snaps.getD j []) ≠ none)
    (hconst : ∃ k, k < snaps.length ∧ ∀ j, j < snaps.length → k ≤ j →
        Disp.timerValueOf (snaps.getD j []) = Disp.timerValueOf (snaps.getD k []))
    (i : Nat) (hi : i < snaps.length) :
    Disp.firesAt snaps i ↔
      (Disp.STABLE_TIMER_POLLS ≤ Disp.countAfter snaps i ∧
        ∀ j, j < i → Disp.countAfter snaps j < Disp.STABLE_TIMER_POLLS) := by
  unfold Disp.firesAt Disp.countAfter
  constructor
  · rintro ⟨-, h2, h3⟩
    exact ⟨(completesNow_iff _ _).mp h2,
      fun j hj => (completesNow_false_iff _ _).mp (h3 j hj)⟩
  · rintro ⟨h2, h3⟩
    exact ⟨hi, (completesNow_iff _ _).mpr h2,
      fun j hj => (completesNow_false_iff _ _).mpr (h3 j hj)⟩

/-- Five-poll run with a constant timer line, used as a concrete witness for
the detector theorems. -/
def constRun : List (List String) :=
  [["Worked for 3s"], ["Worked for 3s"], ["Worked for 3s"], ["Worked for 3s"],
    ["Worked for 3s"]]

/-- Witness for C1: on a five-poll constant run the detector completes
exactly at the fifth poll. -/
theorem detector_completes_iff_stable_threshold_witness :
    Disp.firesAt constRun 4 :=
  (detector_completes_iff_stable_threshold constRun (by decide)
    ⟨0, by decide, by decide⟩ 4 (by decide)).mpr (by decide)

/-- C4: when a poll's timer value is present but differs from the stored last
timer value, the detector restarts the stable count at exactly 1 — not a
decrement and not 0 — and cannot complete at that poll. -/
theorem differing_value_restarts_count (st : Disp.LoopState)
    (snap : List String) (i : Nat) (L : String)
    (hfind : Disp.find_last_timer_line snap = some (i, L))
    (hpres : Disp.extract_timer_value (some L) ≠ none)
    (hdiff : Disp.extract_timer_value (some L) ≠
        Disp.extract_timer_value st.last_timer_line) :
    Disp.stepState st snap = ⟨1, some L⟩ ∧
      Disp.completesNow st snap = false := by
  have hline : st.last_timer_line ≠ some L := by
    intro hc
    rw [hc] at hdiff
    exact hdiff rfl
  have hstep : Disp.stepState st snap = ⟨1, some L⟩ := by
    unfold Disp.stepState
    rw [hfind]
    simp [hline]
  refine ⟨hstep, ?_⟩
  rw [completesNow_false_iff, hstep]
  show (1 : Nat) < Disp.STABLE_TIMER_POLLS
  decide

/-- Witness for C4 at a concrete state and snapshot. -/
theorem differing_value_restarts_count_witness :
    Disp.stepState ⟨3, some "Worked for 5s"⟩ ["Worked for 9s"] =
      ⟨1, some "Worked for 9s"⟩ ∧
      Disp.completesNow ⟨3, some "Worked for 5s"⟩ ["Worked for 9s"] = false :=
  differing_value_restarts_count ⟨3, some "Worked for 5s"⟩ ["Worked for 9s"] 0
    "Worked for 9s" (by decide) (by decide) (by decide)

/-- Six-poll run with the timer present at poll 0 and then absent for five
consecutive polls. -/
def absentRun : List (List String) :=
  [["Worked for 3s"], ["idle"], ["idle"], ["idle"], ["idle"], ["idle"]]

/-- Counterexample to C2: although a timer value was present at poll 0 and no
timer line is found for the following five consecutive polls, the detector
does not transition to Completed at poll 5 (or poll 4): there is no
absence-based completion path. -/
theorem no_absence_completion_cex :
    Disp.find_last_timer_line ["Worked for 3s"] ≠ none ∧
    Disp.find_last_timer_line ["idle"] = none ∧
    ¬ Disp.firesAt absentRun 5 ∧
    ¬ Disp.firesAt absentRun 4 := by decide

/-- C2 amended: when no timer line is found at a poll, the detector resets
its stable count to 0 and clears the stored line, and never transitions to
Completed at that poll — absence never triggers completion and no
"Worked for"-marker resolution path exists. -/
theorem absent_timer_resets_and_never_completes (st : Disp.LoopState)
    (snap : List String)
    (habs : Disp.find_last_timer_line snap = none) :
    Disp.stepState st snap = ⟨0, none⟩ ∧
      Disp.completesNow st snap = false := by
  unfold Disp.stepState Disp.completesNow
  rw [habs]
  exact ⟨rfl, rfl⟩

/-- Witness for the amended C2 at a concrete state and snapshot. -/
theorem absent_timer_resets_witness :
    Disp.stepState ⟨4, some "Worked for 3s"⟩ ["idle"] = ⟨0, none⟩ ∧
      Disp.completesNow ⟨4, some "Worked for 3s"⟩ ["idle"] = false :=
  absent_timer_resets_and_never_completes ⟨4, some "Worked for 3s"⟩ ["idle"]
    (by decide)

/-- Two-poll run whose timer lines differ as strings but share the extracted
timer value. -/
def sameValueRun : List (List String) :=
  [["Worked for 3s done"], ["Worked for 3s ok"]]

/-- Counterexample to C3: two consecutive polls whose last timer lines differ
as strings but yield equal extracted timer values leave the stable count at 1
(a reset), not incremented to 2. -/
theorem raw_line_comparison_cex :
    Disp.extract_timer_value (some "Worked for 3s done") = some "3s" ∧
    Disp.extract_timer_value (some "Worked for 3s ok") = some "3s" ∧
    ("Worked for 3s done" : String) ≠ "Worked for 3s ok" ∧
    (Disp.stateBefore sameValueRun 1).stable_timer_polls = 1 ∧
    (Disp.stateBefore sameValueRun 2).stable_timer_polls = 1 := by decide

/-- C3 amended: the stability comparison is over the raw last timer line, not
the extracted duration token — a poll whose timer line differs as a string
from the stored line resets the stable count to 1 even when the two lines
yield equal extracted timer values. -/
theorem equal_value_different_line_resets (st : Disp.LoopState)
    (snap : List String) (i : Nat) (L : String)
    (hfind : Disp.find_last_timer_line snap = some (i, L))
    (hneq : st.last_timer_line ≠ some L)
    (hval : Disp.extract_timer_value st.last_timer_line =
        Disp.extract_timer_value (some L)) :
    Disp.stepState st snap = ⟨1, some L⟩ := by
  unfold Disp.stepState
  rw [hfind]
  simp [hneq]

/-- Witness for the amended C3 at a concrete state and snapshot. -/
theorem equal_value_different_line_resets_witness :
    Disp.stepState ⟨1, some "Worked for 3s done"⟩ ["Worked for 3s ok"] =
      ⟨1, some "Worked for 3s ok"⟩ :=
  equal_value_different_line_resets ⟨1, some "Worked for 3s done"⟩
    ["Worked for 3s ok"] 0 "Worked for 3s ok" (by decide) (by decide) (by decide)

lemma getD_drop (l : List String) (n m : Nat) :
    (l.drop n).getD m "" = l.getD (n + m) "" := by
  simp [List.getD_eq_getElem?_getD, List.getElem?_drop]

lemma findLastBy_eq_none (p : String → Bool) (lines : List String)
    (h : ∀ k, k < lines.length → p (lines.getD k "") = false) :
    findLastBy p lines = none := by
  induction lines with
  | nil => rfl
  | cons l ls ih =>
      have htail : findLastBy p ls = none := by
        apply ih
        intro k hk
        have hk1 : k + 1 < (l :: ls).length := by
          simp only [List.length_cons]
          omega
        simpa using h (k + 1) hk1
      have hhead : p l = false := by
        simpa using h 0 (by simp)
      simp [findLastBy, htail, hhead]

lemma findLastBy_eq_last (p : String → Bool) (lines : List String) (i : Nat)
    (hi : i < lines.length) (hp : p (lines.getD i "") = true)
    (hlast : ∀ j, j < lines.length → i < j → p (lines.getD j "") = false) :
    findLastBy p lines = some (i, lines.getD i "") := by
  induction lines generalizing i with
  | nil => cases hi
  | cons l ls ih =>
      cases i with
      | zero =>
          have htail : findLastBy p ls = none := by
            apply findLastBy_eq_none
            intro k hk
            have hk1 : k + 1 < (l :: ls).length := by
              simp only [List.length_cons]
              omega
            simpa using hlast (k + 1) hk1 (by omega)
          have hl : p l = true := by simpa using hp
          simp [findLastBy, htail, hl]
      | succ n =>
          have hn : n < ls.length := by
            simp only [List.length_cons] at hi
            omega
          have hpn : p (ls.getD n "") = true := by simpa using hp
          have hlast' : ∀ j, j < ls.length → n < j → p (ls.getD j "") = false := by
            intro j hj hnj
            have hj1 : j + 1 < (l :: ls).length := by
              simp only [List.length_cons]
              omega
            simpa using hlast (j + 1) hj1 (by omega)
          have := ih n hn hpn hlast'
          simp [findLastBy, this]

/-- C5: `find_last_timer_line` returns the greatest index whose line matches
the live-timer pattern, together with that line, and `(none, none)` when no
line matches. -/
theorem find_last_timer_line_greatest_match (lines : List String) :
    (∀ i, i < lines.length → hasTimer (lines.getD i "") = true →
        (∀ j, j < lines.length → i < j → hasTimer (lines.getD j "") = false) →
        Pane.find_last_timer_line lines = some (i, lines.getD i ""))
    ∧ ((∀ i, i < lines.length → hasTimer (lines.getD i "") = false) →
        Pane.find_last_timer_line lines = none) :=
  ⟨fun i hi hp hlast => findLastBy_eq_last hasTimer lines i hi hp hlast,
    fun h => findLastBy_eq_none hasTimer lines h⟩

/-- Concrete snapshot with live-timer matches at indices 0 and 2. -/
def timerLinesW : List String :=
  ["Working (1s • esc to interrupt)", "intermediate output",
    "Listing directory contents (2s • esc to interrupt)"]

/-- Witness for C5: on the three-line snapshot the highest-index match wins. -/
theorem find_last_timer_line_greatest_match_witness :
    Pane.find_last_timer_line timerLinesW =
      some (2, "Listing directory contents (2s • esc to interrupt)") :=
  (find_last_timer_line_greatest_match timerLinesW).1 2 (by decide) (by decide)
    (by decide)

lemma promptScan_some (ls : List String) (b r : Nat)
    (h : promptScan ls b = some r) :
    b ≤ r ∧ r - b < ls.length ∧ isPrompt (ls.getD (r - b) "") = true ∧
      ∀ m, m < r - b → isPrompt (ls.getD m "") = false := by
  induction ls generalizing b with
  | nil => cases h
  | cons l ls ih =>
      by_cases hl : isPrompt l = true
      · have hbr : b = r := by
          have h2 : some b = some r := by simpa [promptScan, hl] using h
          injection h2
        subst hbr
        refine ⟨Nat.le_refl _, by simp, ?_, ?_⟩
        · simpa [Nat.sub_self] using hl
        · intro m hm
          omega
      · have hl' : isPrompt l = false := by
          cases hx : isPrompt l
          · rfl
          · exact absurd hx hl
        have h' : promptScan ls (b + 1) = some r := by
          simpa [promptScan, hl'] using h
        obtain ⟨h1, h2, h3, h4⟩ := ih (b + 1) h'
        have hrb : r - b = (r - (b + 1)) + 1 := by omega
        refine ⟨by omega, ?_, ?_, ?_⟩
        · simp only [List.length_cons]
          omega
        · rw [hrb]
          simpa using h3
        · intro m hm
          cases m with
          | zero => simpa using hl'
          | succ m' =>
              have hm' : m' < r - (b + 1) := by omega
              simpa using h4 m' hm'

lemma promptScan_none (ls : List String) (b : Nat) :
    promptScan ls b = none ↔
      ∀ m, m < ls.length → isPrompt (ls.getD m "") = false := by
  induction ls generalizing b with
  | nil => simp [promptScan]
  | cons l ls ih =>
      by_cases hl : isPrompt l = true
      · constructor
        · intro hc
          rw [promptScan, if_pos hl] at hc
          cases hc
        · intro hall
          have := hall 0 (by simp)
          simp at this
          rw [this] at hl
          cases hl
      · have hl' : isPrompt l = false := by
          cases hx : isPrompt l
          · rfl
          · exact absurd hx hl
        rw [promptScan, if_neg hl, ih (b + 1)]
        constructor
        · intro h m hm
          cases m with
          | zero => simpa using hl'
          | succ m' =>
              have hm' : m' < ls.length := by
                simp only [List.length_cons] at hm
                omega
              simpa using h m' hm'
        · intro h m hm
          have hm1 : m + 1 < (l :: ls).length := by
            simp only [List.length_cons]
            omega
          simpa using h (m + 1) hm1

/-- C9: `find_prompt_line` returns the smallest index strictly greater than
`start` whose leading-whitespace-trimmed text starts with a prompt glyph, and
`none` exactly when no line after `start` qualifies; the line at `start`
itself is never considered. -/
theorem find_prompt_line_first_after (lines : List String) (start : Nat) :
    (∀ i, find_prompt_line lines start = some i →
        start < i ∧ i < lines.length ∧ isPrompt (lines.getD i "") = true ∧
          ∀ j, j < i → start < j → isPrompt (lines.getD j "") = false)
    ∧ (find_prompt_line lines start = none ↔
        ∀ j, j < lines.length → start < j → isPrompt (lines.getD j "") = false) := by
  constructor
  · intro i h
    obtain ⟨h1, h2, h3, h4⟩ := promptScan_some _ _ _ h
    rw [List.length_drop] at h2
    have hil : i < lines.length := by omega
    refine ⟨by omega, hil, ?_, ?_⟩
    · rw [getD_drop] at h3
      have : start + 1 + (i - (start + 1)) = i := by omega
      rwa [this] at h3
    · intro j hj hsj
      have hm : j - (start + 1) < i - (start + 1) := by omega
      have := h4 (j - (start + 1)) hm
      rw [getD_drop] at this
      have heq : start + 1 + (j - (start + 1)) = j := by omega
      rwa [heq] at this
  · rw [find_prompt_line, promptScan_none]
    constructor
    · intro h j hj hsj
      have hm : j - (start + 1) < (lines.drop (start + 1)).length := by
        rw [List.length_drop]
        omega
      have := h (j - (start + 1)) hm
      rw [getD_drop] at this
      have heq : start + 1 + (j - (start + 1)) = j := by omega
      rwa [heq] at this
    · intro h m hm
      rw [List.length_drop] at hm
      rw [getD_drop]
      exact h (start + 1 + m) (by omega) (by omega)

/-- Witness for C9 on a concrete snapshot: the prompt line after index 0 is
found at index 2. -/
theorem find_prompt_line_first_after_witness :
    (0 : Nat) < 2 ∧ 2 < ([("Working (2s • esc to interrupt)" : String),
        "output line", "> run", "trailing"]).length ∧
      isPrompt (([("Working (2s • esc to interrupt)" : String), "output line",
        "> run", "trailing"]).getD 2 "") = true ∧
      ∀ j, j < 2 → 0 < j →
        isPrompt (([("Working (2s • esc to interrupt)" : String), "output line",
          "> run", "trailing"]).getD j "") = false :=
  (find_prompt_line_first_after ["Working (2s • esc to interrupt)",
    "output line", "> run", "trailing"] 0).1 2 (by decide)
